import Mathlib

/-!
Verification of the SimpleRayTracer geometry kernel and scene loop
(src/SimpleRayTracer/SimpleRayTracer.cpp), shallowly embedded over the
real numbers: the C++ float arithmetic is modelled by exact real
arithmetic, so every "within floating-point tolerance" statement is
settled as an exact equality over the reals.
-/

/-- 2D vector with coordinates x and y, as in struct Vec2. -/
@[ext] structure Vec2 where
  x : ℝ
  y : ℝ

/-- Componentwise addition, as in Vec2::operator+. -/
instance : Add Vec2 := ⟨fun a b => ⟨a.x + b.x, a.y + b.y⟩⟩

/-- Componentwise subtraction, as in Vec2::operator-. -/
instance : Sub Vec2 := ⟨fun a b => ⟨a.x - b.x, a.y - b.y⟩⟩

/-- Scaling by a scalar on the right, as in Vec2::operator*. -/
instance : HMul Vec2 ℝ Vec2 := ⟨fun v s => ⟨v.x * s, v.y * s⟩⟩

/-- Euclidean length, as in Vec2::length: sqrt of x*x + y*y. -/
noncomputable def Vec2.length (v : Vec2) : ℝ :=
  Real.sqrt (v.x * v.x + v.y * v.y)

/-- Normalization, as in Vec2::normalize: divide by the length when it is
positive, return the vector unchanged otherwise. -/
noncomputable def Vec2.normalize (v : Vec2) : Vec2 :=
  if v.length > 0 then Vec2.mk (v.x / v.length) (v.y / v.length) else v

/-- Initial light position, the global lightPos of the program. -/
def lightPos0 : Vec2 := ⟨400, 300⟩

/-- Center of the fixed circular obstacle, the global sphereCenter. -/
def sphereCenter : Vec2 := ⟨400, 300⟩

/-- Radius of the fixed circular obstacle, the global sphereRadius. -/
def sphereRadius : ℝ := 50

/-- Leading coefficient of the ray-circle quadratic, the local a of
intersect: rayDir.x * rayDir.x + rayDir.y * rayDir.y. -/
def coeffA (rayDir : Vec2) : ℝ :=
  rayDir.x * rayDir.x + rayDir.y * rayDir.y

/-- Linear coefficient of the ray-circle quadratic, the local b of
intersect: twice the dot product of oc = rayOrigin - center with rayDir. -/
def coeffB (center rayOrigin rayDir : Vec2) : ℝ :=
  2 * ((rayOrigin - center).x * rayDir.x + (rayOrigin - center).y * rayDir.y)

/-- Constant coefficient of the ray-circle quadratic, the local c of
intersect: squared length of oc minus the squared radius. -/
def coeffC (center : Vec2) (radius : ℝ) (rayOrigin : Vec2) : ℝ :=
  (rayOrigin - center).x * (rayOrigin - center).x +
    (rayOrigin - center).y * (rayOrigin - center).y - radius * radius

/-- Discriminant b*b - 4*a*c of the ray-circle quadratic, the local
discriminant of intersect. -/
def discriminant (center : Vec2) (radius : ℝ) (rayOrigin rayDir : Vec2) : ℝ :=
  coeffB center rayOrigin rayDir * coeffB center rayOrigin rayDir -
    4 * coeffA rayDir * coeffC center radius rayOrigin

/-- The smaller root (-b - sqrt(discriminant)) / (2*a) that intersect
assigns to its out-parameter t when the discriminant is non-negative. -/
noncomputable def nearRoot (center : Vec2) (radius : ℝ) (rayOrigin rayDir : Vec2) : ℝ :=
  (-coeffB center rayOrigin rayDir -
      Real.sqrt (discriminant center radius rayOrigin rayDir)) /
    (2 * coeffA rayDir)

/-- The intersect function. The C++ signature is
bool intersect(rayOrigin, rayDir, float and t), reading the globals
sphereCenter and sphereRadius; here the globals are passed as the first
two arguments and the in-out parameter t is modelled by taking its prior
value t0 and returning the pair (returned bool, final value of t): if the
discriminant is negative the function returns false without touching t;
otherwise it writes the smaller root into t and returns whether t > 0.001. -/
noncomputable def intersect (center : Vec2) (radius : ℝ)
    (rayOrigin rayDir : Vec2) (t0 : ℝ) : Bool × ℝ :=
  if discriminant center radius rayOrigin rayDir < 0 then (false, t0)
  else (decide (nearRoot center radius rayOrigin rayDir > 0.001),
        nearRoot center radius rayOrigin rayDir)

/-- Direction of sampled ray i out of numRays, as built in main:
angle = 2 * pi * i / numRays, direction (cos angle, sin angle). -/
noncomputable def rayDirection (numRays i : ℕ) : Vec2 :=
  ⟨Real.cos (2 * Real.pi * i / numRays), Real.sin (2 * Real.pi * i / numRays)⟩

/-- Mutable scene state of the event loop: the globals lightPos and
draggingLight. -/
structure SceneState where
  lightPos : Vec2
  draggingLight : Bool

/-- Input events the event loop reacts on (besides SDL_QUIT). -/
inductive Event where
  | mouseButtonDown (pos : Vec2)
  | mouseButtonUp
  | mouseMotion (pos : Vec2)

/-- One step of the event-handling loop in main: mouse-down within
distance 20 of the light starts dragging, mouse-up stops dragging
unconditionally, mouse-motion while dragging teleports the light to the
pointer position. -/
noncomputable def handleEvent (s : SceneState) (e : Event) : SceneState :=
  match e with
  | .mouseButtonDown mouse =>
      if (mouse - s.lightPos).length < 20 then ⟨s.lightPos, true⟩ else s
  | .mouseButtonUp => ⟨s.lightPos, false⟩
  | .mouseMotion m => if s.draggingLight then ⟨m, s.draggingLight⟩ else s

/-- Folding handleEvent over the polled event queue, as the inner
while-SDL_PollEvent loop does. -/
noncomputable def processEvents (s : SceneState) (es : List Event) : SceneState :=
  es.foldl handleEvent s

@[simp] theorem Vec2.mk_x (a b : ℝ) : (Vec2.mk a b).x = a := rfl

@[simp] theorem Vec2.mk_y (a b : ℝ) : (Vec2.mk a b).y = b := rfl

@[simp] theorem Vec2.add_x (a b : Vec2) : (a + b).x = a.x + b.x := rfl

@[simp] theorem Vec2.add_y (a b : Vec2) : (a + b).y = a.y + b.y := rfl

@[simp] theorem Vec2.sub_x (a b : Vec2) : (a - b).x = a.x - b.x := rfl

@[simp] theorem Vec2.sub_y (a b : Vec2) : (a - b).y = a.y - b.y := rfl

@[simp] theorem Vec2.mul_x (v : Vec2) (s : ℝ) : (v * s).x = v.x * s := rfl

@[simp] theorem Vec2.mul_y (v : Vec2) (s : ℝ) : (v * s).y = v.y * s := rfl

theorem Vec2.length_mul_self (v : Vec2) :
    v.length * v.length = v.x * v.x + v.y * v.y :=
  Real.mul_self_sqrt (add_nonneg (mul_self_nonneg _) (mul_self_nonneg _))

theorem Vec2.length_nonneg (v : Vec2) : 0 ≤ v.length :=
  Real.sqrt_nonneg _

theorem Vec2.length_mk (a b : ℝ) :
    (Vec2.mk a b).length = Real.sqrt (a * a + b * b) := rfl

theorem sqrt_eval {a b : ℝ} (hb : 0 ≤ b) (h : b * b = a) : Real.sqrt a = b := by
  rw [← h]
  exact Real.sqrt_mul_self hb

theorem Vec2.length_pos_of_ne_zero (v : Vec2) (h : v ≠ Vec2.mk 0 0) :
    0 < v.length := by
  apply Real.sqrt_pos.mpr
  rcases eq_or_ne v.x 0 with hx | hx
  · rcases eq_or_ne v.y 0 with hy | hy
    · exact absurd (by cases v; simp_all) h
    · have : 0 < v.y * v.y := mul_self_pos.mpr hy
      nlinarith [mul_self_nonneg v.x]
  · have : 0 < v.x * v.x := mul_self_pos.mpr hx
    nlinarith [mul_self_nonneg v.y]

theorem Vec2.normalize_of_pos (v : Vec2) (h : 0 < v.length) :
    v.normalize = Vec2.mk (v.x / v.length) (v.y / v.length) := by
  unfold Vec2.normalize
  rw [if_pos h]

/-- C6: normalize applied to a vector of length 0 returns it unchanged; the
division branch is guarded by length > 0, so the zero-length case never
divides. -/
theorem normalize_zero_length (v : Vec2) (h : v.length = 0) :
    v.normalize = v := by
  unfold Vec2.normalize
  rw [if_neg]
  rw [h]
  exact lt_irrefl 0

theorem normalize_zero_length_witness :
    (Vec2.mk 0 0).length = 0 ∧ (Vec2.mk 0 0).normalize = Vec2.mk 0 0 := by
  have h : (Vec2.mk 0 0).length = 0 := by
    unfold Vec2.length
    norm_num
  exact ⟨h, normalize_zero_length _ h⟩

/-- C7: for a nonzero vector, normalize yields a unit-length vector, and
scaling it back by the original length reconstructs the vector. -/
theorem normalize_round_trip (v : Vec2) (h : v ≠ Vec2.mk 0 0) :
    (Vec2.normalize v).length = 1 ∧ Vec2.normalize v * v.length = v := by
  have hl : 0 < v.length := v.length_pos_of_ne_zero h
  have hl0 : v.length ≠ 0 := ne_of_gt hl
  have hxy : v.x * v.x + v.y * v.y ≠ 0 := by
    rw [← v.length_mul_self]
    exact mul_ne_zero hl0 hl0
  rw [v.normalize_of_pos hl]
  constructor
  · rw [Vec2.length_mk]
    rw [show v.x / v.length * (v.x / v.length) + v.y / v.length * (v.y / v.length)
        = (v.x * v.x + v.y * v.y) / (v.length * v.length) from by field_simp]
    rw [v.length_mul_self, div_self hxy]
    exact Real.sqrt_one
  · apply Vec2.ext
    · simp only [Vec2.mul_x, Vec2.mk_x]
      field_simp
    · simp only [Vec2.mul_y, Vec2.mk_y]
      field_simp

theorem normalize_round_trip_witness :
    Vec2.mk 3 4 ≠ Vec2.mk 0 0 ∧
      ((Vec2.normalize (Vec2.mk 3 4)).length = 1 ∧
        Vec2.normalize (Vec2.mk 3 4) * (Vec2.mk 3 4).length = Vec2.mk 3 4) := by
  have h : Vec2.mk 3 4 ≠ Vec2.mk 0 0 := by
    intro hEq
    have : (3 : ℝ) = 0 := congrArg Vec2.x hEq
    norm_num at this
  exact ⟨h, normalize_round_trip _ h⟩

/-- C1: whenever the discriminant is non-negative, intersect writes the
smaller root into t and reports a hit exactly when that root exceeds
0.001; a root at most 0.001 is reported as no intersection. -/
theorem intersect_nonneg_disc (center : Vec2) (radius : ℝ) (o d : Vec2)
    (t0 : ℝ) (h : 0 ≤ discriminant center radius o d) :
    (intersect center radius o d t0).2 = nearRoot center radius o d ∧
      ((intersect center radius o d t0).1 = true ↔
        0.001 < nearRoot center radius o d) := by
  unfold intersect
  rw [if_neg (not_lt.mpr h)]
  exact ⟨rfl, by simp⟩

theorem intersect_nonneg_disc_witness :
    0 ≤ discriminant (Vec2.mk 0 0) 5 (Vec2.mk 10 0) (Vec2.mk (-1) 0) ∧
      ((intersect (Vec2.mk 0 0) 5 (Vec2.mk 10 0) (Vec2.mk (-1) 0) 0).2 =
          nearRoot (Vec2.mk 0 0) 5 (Vec2.mk 10 0) (Vec2.mk (-1) 0) ∧
        ((intersect (Vec2.mk 0 0) 5 (Vec2.mk 10 0) (Vec2.mk (-1) 0) 0).1 = true ↔
          0.001 < nearRoot (Vec2.mk 0 0) 5 (Vec2.mk 10 0) (Vec2.mk (-1) 0))) := by
  have h : 0 ≤ discriminant (Vec2.mk 0 0) 5 (Vec2.mk 10 0) (Vec2.mk (-1) 0) := by
    unfold discriminant coeffA coeffB coeffC
    norm_num [Vec2.sub_x, Vec2.sub_y, Vec2.mk_x, Vec2.mk_y]
  exact ⟨h, intersect_nonneg_disc _ _ _ _ _ h⟩

/-- C2: for a unit direction and a circle not containing the ray origin,
a negative discriminant makes intersect report no intersection. -/
theorem intersect_neg_disc (center : Vec2) (radius : ℝ) (o d : Vec2)
    (t0 : ℝ) (hu : d.length = 1) (hout : radius < (o - center).length)
    (h : discriminant center radius o d < 0) :
    (intersect center radius o d t0).1 = false := by
  unfold intersect
  rw [if_pos h]

theorem intersect_neg_disc_witness :
    (Vec2.mk 0 1).length = 1 ∧
      (5 : ℝ) < (Vec2.mk 10 0 - Vec2.mk 0 0).length ∧
      discriminant (Vec2.mk 0 0) 5 (Vec2.mk 10 0) (Vec2.mk 0 1) < 0 ∧
      (intersect (Vec2.mk 0 0) 5 (Vec2.mk 10 0) (Vec2.mk 0 1) 0).1 = false := by
  have hu : (Vec2.mk 0 1).length = 1 := by
    rw [Vec2.length_mk]
    exact sqrt_eval (by norm_num) (by norm_num)
  have hlen : (Vec2.mk 10 0 - Vec2.mk 0 0).length = 10 := by
    unfold Vec2.length
    simp only [Vec2.sub_x, Vec2.sub_y, Vec2.mk_x, Vec2.mk_y]
    exact sqrt_eval (by norm_num) (by norm_num)
  have hout : (5 : ℝ) < (Vec2.mk 10 0 - Vec2.mk 0 0).length := by
    rw [hlen]; norm_num
  have h : discriminant (Vec2.mk 0 0) 5 (Vec2.mk 10 0) (Vec2.mk 0 1) < 0 := by
    unfold discriminant coeffA coeffB coeffC
    norm_num [Vec2.sub_x, Vec2.sub_y, Vec2.mk_x, Vec2.mk_y]
  exact ⟨hu, hout, h, intersect_neg_disc _ _ _ _ _ hu hout h⟩

/-- C10: intersect leaves t unchanged exactly in the negative-discriminant
branch; a non-negative discriminant overwrites t with the smaller root
before the t > 0.001 test, so a false return can still modify t. -/
theorem intersect_t_write (center : Vec2) (radius : ℝ) (o d : Vec2)
    (t0 : ℝ) :
    (discriminant center radius o d < 0 →
        intersect center radius o d t0 = (false, t0)) ∧
      (0 ≤ discriminant center radius o d →
        (intersect center radius o d t0).2 = nearRoot center radius o d) := by
  constructor
  · intro h
    unfold intersect
    rw [if_pos h]
  · intro h
    unfold intersect
    rw [if_neg (not_lt.mpr h)]

theorem intersect_t_write_witness :
    intersect (Vec2.mk 0 0) 50 (Vec2.mk 100 0) (Vec2.mk 0 1) 7 = (false, 7) ∧
      0 ≤ discriminant (Vec2.mk 0 0) 50 (Vec2.mk 0 0) (Vec2.mk 1 0) ∧
      (intersect (Vec2.mk 0 0) 50 (Vec2.mk 0 0) (Vec2.mk 1 0) 7).1 = false ∧
      (intersect (Vec2.mk 0 0) 50 (Vec2.mk 0 0) (Vec2.mk 1 0) 7).2 = -50 := by
  have hneg : discriminant (Vec2.mk 0 0) 50 (Vec2.mk 100 0) (Vec2.mk 0 1) < 0 := by
    unfold discriminant coeffA coeffB coeffC
    norm_num [Vec2.sub_x, Vec2.sub_y, Vec2.mk_x, Vec2.mk_y]
  have hd : discriminant (Vec2.mk 0 0) 50 (Vec2.mk 0 0) (Vec2.mk 1 0) = 10000 := by
    unfold discriminant coeffA coeffB coeffC
    norm_num [Vec2.sub_x, Vec2.sub_y, Vec2.mk_x, Vec2.mk_y]
  have hroot : nearRoot (Vec2.mk 0 0) 50 (Vec2.mk 0 0) (Vec2.mk 1 0) = -50 := by
    unfold nearRoot
    rw [hd, sqrt_eval (show (0:ℝ) ≤ 100 by norm_num)
      (show (100:ℝ) * 100 = 10000 by norm_num)]
    unfold coeffA coeffB
    norm_num [Vec2.sub_x, Vec2.sub_y, Vec2.mk_x, Vec2.mk_y]
  have hsnd : (intersect (Vec2.mk 0 0) 50 (Vec2.mk 0 0) (Vec2.mk 1 0) 7).2 = -50 := by
    rw [(intersect_t_write _ _ _ _ _).2 (by rw [hd]; norm_num), hroot]
  have hfst : (intersect (Vec2.mk 0 0) 50 (Vec2.mk 0 0) (Vec2.mk 1 0) 7).1 = false := by
    unfold intersect
    rw [if_neg (by rw [hd]; norm_num), hroot]
    norm_num
  exact ⟨(intersect_t_write _ _ _ _ _).1 hneg, by rw [hd]; norm_num, hfst, hsnd⟩

/-- C3 counterexample: with the circle centered at (400,300), radius 50,
and the light at (400,300), sampled ray 0 is reported as a miss with
computed root -50, not as a hit at distance 50. -/
theorem intersect_center_sample0 :
    intersect sphereCenter sphereRadius lightPos0 (rayDirection 360 0) 0 =
      (false, -50) := by
  have hdir : rayDirection 360 0 = Vec2.mk 1 0 := by
    unfold rayDirection
    norm_num [Real.cos_zero, Real.sin_zero]
  rw [hdir]
  have hD : discriminant sphereCenter sphereRadius lightPos0 (Vec2.mk 1 0) = 10000 := by
    unfold discriminant coeffA coeffB coeffC lightPos0 sphereCenter sphereRadius
    norm_num [Vec2.sub_x, Vec2.sub_y, Vec2.mk_x, Vec2.mk_y]
  have hroot : nearRoot sphereCenter sphereRadius lightPos0 (Vec2.mk 1 0) = -50 := by
    unfold nearRoot
    rw [hD, sqrt_eval (show (0:ℝ) ≤ 100 by norm_num)
      (show (100:ℝ) * 100 = 10000 by norm_num)]
    unfold coeffA coeffB lightPos0 sphereCenter
    norm_num [Vec2.sub_x, Vec2.sub_y, Vec2.mk_x, Vec2.mk_y]
  unfold intersect
  rw [if_neg (by rw [hD]; norm_num), hroot]
  rw [show decide ((-50:ℝ) > 0.001) = false from decide_eq_false (by norm_num)]

/-- C3 amended: with the circle centered at (400,300), radius 50, and the
light at the center (400,300), every sampled unit direction yields the
smaller root t = -50, which fails the t > 0.001 test, so all 360 sampled
rays report no intersection (the prior t value is overwritten by -50). -/
theorem intersect_center_all_rays_miss (i : ℕ) (t0 : ℝ) :
    intersect sphereCenter sphereRadius lightPos0 (rayDirection 360 i) t0 =
      (false, -50) := by
  have hA : coeffA (rayDirection 360 i) = 1 := by
    unfold coeffA rayDirection
    simp only [Vec2.mk_x, Vec2.mk_y]
    rw [← Real.sin_sq_add_cos_sq (2 * Real.pi * i / 360)]
    ring
  have hB : coeffB sphereCenter lightPos0 (rayDirection 360 i) = 0 := by
    unfold coeffB lightPos0 sphereCenter
    simp only [Vec2.sub_x, Vec2.sub_y, Vec2.mk_x, Vec2.mk_y]
    norm_num
  have hC : coeffC sphereCenter sphereRadius lightPos0 = -2500 := by
    unfold coeffC lightPos0 sphereCenter sphereRadius
    norm_num [Vec2.sub_x, Vec2.sub_y, Vec2.mk_x, Vec2.mk_y]
  have hD : discriminant sphereCenter sphereRadius lightPos0 (rayDirection 360 i)
      = 10000 := by
    unfold discriminant
    rw [hA, hB, hC]
    norm_num
  have hroot : nearRoot sphereCenter sphereRadius lightPos0 (rayDirection 360 i)
      = -50 := by
    unfold nearRoot
    rw [hA, hB, hD, sqrt_eval (show (0:ℝ) ≤ 100 by norm_num)
      (show (100:ℝ) * 100 = 10000 by norm_num)]
    norm_num
  unfold intersect
  rw [if_neg (by rw [hD]; norm_num), hroot]
  rw [show decide ((-50:ℝ) > 0.001) = false from decide_eq_false (by norm_num)]

/-- C8: a mouse-down within distance 20 of the light sets the dragging
flag, a mouse-move while dragging teleports the light exactly to the
pointer position, and a mouse-up clears the flag unconditionally. -/
theorem handleEvent_drag (s : SceneState) (m : Vec2) :
    ((m - s.lightPos).length < 20 →
        (handleEvent s (Event.mouseButtonDown m)).draggingLight = true) ∧
      (s.draggingLight = true →
        handleEvent s (Event.mouseMotion m) = ⟨m, s.draggingLight⟩) ∧
      (handleEvent s Event.mouseButtonUp).draggingLight = false := by
  refine ⟨?_, ?_, rfl⟩
  · intro h
    simp only [handleEvent]
    rw [if_pos h]
  · intro h
    simp only [handleEvent]
    rw [if_pos h]

theorem handleEvent_drag_witness :
    (Vec2.mk 405 300 - Vec2.mk 400 300).length < 20 ∧
      (handleEvent ⟨⟨400, 300⟩, false⟩
          (Event.mouseButtonDown (Vec2.mk 405 300))).draggingLight = true ∧
      handleEvent ⟨⟨10, 10⟩, true⟩ (Event.mouseMotion (Vec2.mk 7 8)) =
        ⟨⟨7, 8⟩, true⟩ ∧
      (handleEvent ⟨⟨1, 2⟩, false⟩ Event.mouseButtonUp).draggingLight = false := by
  have hdist : (Vec2.mk 405 300 - Vec2.mk 400 300).length < 20 := by
    have h5 : (Vec2.mk 405 300 - Vec2.mk 400 300).length = 5 := by
      unfold Vec2.length
      simp only [Vec2.sub_x, Vec2.sub_y, Vec2.mk_x, Vec2.mk_y]
      exact sqrt_eval (by norm_num) (by norm_num)
    rw [h5]
    norm_num
  exact ⟨hdist,
    (handleEvent_drag ⟨⟨400, 300⟩, false⟩ (Vec2.mk 405 300)).1 hdist,
    (handleEvent_drag ⟨⟨10, 10⟩, true⟩ (Vec2.mk 7 8)).2.1 rfl,
    (handleEvent_drag ⟨⟨1, 2⟩, false⟩ (Vec2.mk 0 0)).2.2⟩

/-- C9: a mouse-down farther than 20 units from the light leaves the
dragging flag false, and any number of subsequent mouse-move events then
leaves the light position unchanged. -/
theorem pointer_down_far_no_drag (s : SceneState) (m : Vec2)
    (hflag : s.draggingLight = false)
    (hfar : 20 < (m - s.lightPos).length) :
    (handleEvent s (Event.mouseButtonDown m)).draggingLight = false ∧
      ∀ ms : List Vec2,
        (processEvents (handleEvent s (Event.mouseButtonDown m))
            (ms.map Event.mouseMotion)).lightPos = s.lightPos := by
  have hdown : handleEvent s (Event.mouseButtonDown m) = s := by
    simp only [handleEvent]
    rw [if_neg (not_lt.mpr (le_of_lt hfar))]
  have hstay : ∀ ms : List Vec2,
      processEvents s (ms.map Event.mouseMotion) = s := by
    intro ms
    unfold processEvents
    induction ms with
    | nil => rfl
    | cons mv tail ih =>
        simp only [List.map_cons, List.foldl_cons]
        rw [show handleEvent s (Event.mouseMotion mv) = s from by
          simp [handleEvent, hflag]]
        exact ih
  constructor
  · rw [hdown]
    exact hflag
  · intro ms
    rw [hdown, hstay ms]

theorem pointer_down_far_no_drag_witness :
    (SceneState.mk ⟨400, 300⟩ false).draggingLight = false ∧
      (20 : ℝ) < (Vec2.mk 500 300 - (SceneState.mk ⟨400, 300⟩ false).lightPos).length ∧
      (handleEvent ⟨⟨400, 300⟩, false⟩
          (Event.mouseButtonDown (Vec2.mk 500 300))).draggingLight = false ∧
      (processEvents (handleEvent ⟨⟨400, 300⟩, false⟩
            (Event.mouseButtonDown (Vec2.mk 500 300)))
          ([Vec2.mk 1 1].map Event.mouseMotion)).lightPos = Vec2.mk 400 300 := by
  have hfar : (20 : ℝ) <
      (Vec2.mk 500 300 - (SceneState.mk ⟨400, 300⟩ false).lightPos).length := by
    have h100 : (Vec2.mk 500 300 - (SceneState.mk ⟨400, 300⟩ false).lightPos).length
        = 100 := by
      unfold Vec2.length
      simp only [Vec2.sub_x, Vec2.sub_y, Vec2.mk_x, Vec2.mk_y]
      exact sqrt_eval (by norm_num) (by norm_num)
    rw [h100]
    norm_num
  exact ⟨rfl, hfar,
    (pointer_down_far_no_drag ⟨⟨400, 300⟩, false⟩ (Vec2.mk 500 300) rfl hfar).1,
    (pointer_down_far_no_drag ⟨⟨400, 300⟩, false⟩ (Vec2.mk 500 300) rfl hfar).2
      [Vec2.mk 1 1]⟩

/-- C4 counterexample: circle centered at (0,0) with radius 50, origin at
distance 50.0005 from the center (greater than the radius), unit direction
straight at the center; the computed root is 0.0005, which fails the
t > 0.001 test, so intersect reports no hit although d > radius. -/
theorem intersect_just_outside_no_hit :
    (50 : ℝ) < (Vec2.mk 50.0005 0 - Vec2.mk 0 0).length ∧
      Vec2.normalize (Vec2.mk 0 0 - Vec2.mk 50.0005 0) = Vec2.mk (-1) 0 ∧
      (intersect (Vec2.mk 0 0) 50 (Vec2.mk 50.0005 0) (Vec2.mk (-1) 0) 0).1 =
        false := by
  have hlen : (Vec2.mk 50.0005 0 - Vec2.mk 0 0).length = 50.0005 := by
    unfold Vec2.length
    simp only [Vec2.sub_x, Vec2.sub_y, Vec2.mk_x, Vec2.mk_y]
    exact sqrt_eval (by norm_num) (by norm_num)
  have hlen2 : (Vec2.mk 0 0 - Vec2.mk 50.0005 0).length = 50.0005 := by
    unfold Vec2.length
    simp only [Vec2.sub_x, Vec2.sub_y, Vec2.mk_x, Vec2.mk_y]
    exact sqrt_eval (by norm_num) (by norm_num)
  refine ⟨by rw [hlen]; norm_num, ?_, ?_⟩
  · rw [Vec2.normalize_of_pos _ (by rw [hlen2]; norm_num), hlen2]
    apply Vec2.ext
    · simp only [Vec2.sub_x, Vec2.mk_x]
      norm_num
    · simp only [Vec2.sub_y, Vec2.mk_y]
      norm_num
  · have hD : discriminant (Vec2.mk 0 0) 50 (Vec2.mk 50.0005 0) (Vec2.mk (-1) 0)
        = 10000 := by
      unfold discriminant coeffA coeffB coeffC
      norm_num [Vec2.sub_x, Vec2.sub_y, Vec2.mk_x, Vec2.mk_y]
    have hroot : nearRoot (Vec2.mk 0 0) 50 (Vec2.mk 50.0005 0) (Vec2.mk (-1) 0)
        = 0.0005 := by
      unfold nearRoot
      rw [hD, sqrt_eval (show (0:ℝ) ≤ 100 by norm_num)
        (show (100:ℝ) * 100 = 10000 by norm_num)]
      unfold coeffA coeffB
      norm_num [Vec2.sub_x, Vec2.sub_y, Vec2.mk_x, Vec2.mk_y]
    unfold intersect
    rw [if_neg (by rw [hD]; norm_num)]
    show decide (nearRoot (Vec2.mk 0 0) 50 (Vec2.mk 50.0005 0) (Vec2.mk (-1) 0)
      > 0.001) = false
    rw [hroot]
    exact decide_eq_false (by norm_num)

/-- C4 amended: for an origin at distance d from the center with
d - radius > 0.001, the unit direction straight at the center makes
intersect report a hit at exactly t = d - radius; the original claim's
bound d > radius is not enough, since a root at most 0.001 is rejected. -/
theorem intersect_toward_center (center : Vec2) (radius : ℝ) (o : Vec2)
    (t0 : ℝ) (hr : 0 ≤ radius)
    (hfar : radius + 0.001 < (o - center).length) :
    intersect center radius o (Vec2.normalize (center - o)) t0 =
      (true, (o - center).length - radius) := by
  obtain ⟨ox, oy⟩ := o
  obtain ⟨cx, cy⟩ := center
  set L := (Vec2.mk ox oy - Vec2.mk cx cy).length with hLdef
  have hLpos : 0 < L :=
    lt_of_le_of_lt (by linarith : (0:ℝ) ≤ radius + 0.001) hfar
  have hne : L ≠ 0 := ne_of_gt hLpos
  have hLL : L * L = (ox - cx) * (ox - cx) + (oy - cy) * (oy - cy) := by
    rw [hLdef]
    have h := Vec2.length_mul_self (Vec2.mk ox oy - Vec2.mk cx cy)
    simpa using h
  have hrev : (Vec2.mk cx cy - Vec2.mk ox oy).length = L := by
    rw [hLdef]
    unfold Vec2.length
    simp only [Vec2.sub_x, Vec2.sub_y, Vec2.mk_x, Vec2.mk_y]
    rw [show (cx - ox) * (cx - ox) + (cy - oy) * (cy - oy)
        = (ox - cx) * (ox - cx) + (oy - cy) * (oy - cy) from by ring]
  have hdir : Vec2.normalize (Vec2.mk cx cy - Vec2.mk ox oy) =
      Vec2.mk ((cx - ox) / L) ((cy - oy) / L) := by
    rw [Vec2.normalize_of_pos _ (by rw [hrev]; exact hLpos), hrev]
    simp only [Vec2.sub_x, Vec2.sub_y, Vec2.mk_x, Vec2.mk_y]
  rw [hdir]
  have hA : coeffA (Vec2.mk ((cx - ox) / L) ((cy - oy) / L)) = 1 := by
    unfold coeffA
    simp only [Vec2.mk_x, Vec2.mk_y]
    rw [show (cx - ox) / L * ((cx - ox) / L) + (cy - oy) / L * ((cy - oy) / L)
        = ((ox - cx) * (ox - cx) + (oy - cy) * (oy - cy)) / (L * L) from by
      ring]
    rw [← hLL]
    exact div_self (mul_ne_zero hne hne)
  have hB : coeffB (Vec2.mk cx cy) (Vec2.mk ox oy)
      (Vec2.mk ((cx - ox) / L) ((cy - oy) / L)) = -(2 * L) := by
    unfold coeffB
    simp only [Vec2.sub_x, Vec2.sub_y, Vec2.mk_x, Vec2.mk_y]
    rw [show 2 * ((ox - cx) * ((cx - ox) / L) + (oy - cy) * ((cy - oy) / L))
        = -(2 * (((ox - cx) * (ox - cx) + (oy - cy) * (oy - cy)) / L)) from by
      ring]
    rw [← hLL]
    rw [show L * L / L = L from by field_simp]
  have hC : coeffC (Vec2.mk cx cy) radius (Vec2.mk ox oy)
      = L * L - radius * radius := by
    unfold coeffC
    simp only [Vec2.sub_x, Vec2.sub_y, Vec2.mk_x, Vec2.mk_y]
    rw [← hLL]
  have hD : discriminant (Vec2.mk cx cy) radius (Vec2.mk ox oy)
      (Vec2.mk ((cx - ox) / L) ((cy - oy) / L))
      = (2 * radius) * (2 * radius) := by
    unfold discriminant
    rw [hA, hB, hC]
    ring
  have hroot : nearRoot (Vec2.mk cx cy) radius (Vec2.mk ox oy)
      (Vec2.mk ((cx - ox) / L) ((cy - oy) / L)) = L - radius := by
    unfold nearRoot
    rw [hA, hB, hD, Real.sqrt_mul_self (by linarith : (0:ℝ) ≤ 2 * radius)]
    ring
  unfold intersect
  rw [if_neg (by rw [hD]; exact not_lt.mpr (mul_self_nonneg _)), hroot]
  rw [show decide (L - radius > 0.001) = true from
    decide_eq_true (by linarith : L - radius > 0.001)]

theorem intersect_toward_center_witness :
    (0 : ℝ) ≤ 50 ∧
      (50 : ℝ) + 0.001 < (Vec2.mk 0 0 - Vec2.mk 400 300).length ∧
      intersect (Vec2.mk 400 300) 50 (Vec2.mk 0 0)
        (Vec2.normalize (Vec2.mk 400 300 - Vec2.mk 0 0)) 0 = (true, 450) := by
  have hlen : (Vec2.mk 0 0 - Vec2.mk 400 300).length = 500 := by
    unfold Vec2.length
    simp only [Vec2.sub_x, Vec2.sub_y, Vec2.mk_x, Vec2.mk_y]
    exact sqrt_eval (by norm_num) (by norm_num)
  have hfar : (50 : ℝ) + 0.001 < (Vec2.mk 0 0 - Vec2.mk 400 300).length := by
    rw [hlen]
    norm_num
  have h := intersect_toward_center (Vec2.mk 400 300) 50 (Vec2.mk 0 0) 0
    (by norm_num) hfar
  rw [hlen] at h
  refine ⟨by norm_num, hfar, ?_⟩
  rw [h]
  norm_num [Prod.mk.injEq]

/-- C5: a ray from an origin strictly outside the circle, with unit
direction pointing directly away from the center, is reported as no
intersection: the computed root is negative and fails the t > 0.001
test. -/
theorem intersect_away_from_center (center : Vec2) (radius : ℝ) (o : Vec2)
    (t0 : ℝ) (hr : 0 ≤ radius)
    (hout : radius < (o - center).length) :
    (intersect center radius o (Vec2.normalize (o - center)) t0).1 = false := by
  obtain ⟨ox, oy⟩ := o
  obtain ⟨cx, cy⟩ := center
  set L := (Vec2.mk ox oy - Vec2.mk cx cy).length with hLdef
  have hLpos : 0 < L := lt_of_le_of_lt hr hout
  have hne : L ≠ 0 := ne_of_gt hLpos
  have hLL : L * L = (ox - cx) * (ox - cx) + (oy - cy) * (oy - cy) := by
    rw [hLdef]
    have h := Vec2.length_mul_self (Vec2.mk ox oy - Vec2.mk cx cy)
    simpa using h
  have hdir : Vec2.normalize (Vec2.mk ox oy - Vec2.mk cx cy) =
      Vec2.mk ((ox - cx) / L) ((oy - cy) / L) := by
    rw [Vec2.normalize_of_pos _ hLpos]
    simp only [Vec2.sub_x, Vec2.sub_y, Vec2.mk_x, Vec2.mk_y]
  rw [hdir]
  have hA : coeffA (Vec2.mk ((ox - cx) / L) ((oy - cy) / L)) = 1 := by
    unfold coeffA
    simp only [Vec2.mk_x, Vec2.mk_y]
    rw [show (ox - cx) / L * ((ox - cx) / L) + (oy - cy) / L * ((oy - cy) / L)
        = ((ox - cx) * (ox - cx) + (oy - cy) * (oy - cy)) / (L * L) from by
      ring]
    rw [← hLL]
    exact div_self (mul_ne_zero hne hne)
  have hB : coeffB (Vec2.mk cx cy) (Vec2.mk ox oy)
      (Vec2.mk ((ox - cx) / L) ((oy - cy) / L)) = 2 * L := by
    unfold coeffB
    simp only [Vec2.sub_x, Vec2.sub_y, Vec2.mk_x, Vec2.mk_y]
    rw [show 2 * ((ox - cx) * ((ox - cx) / L) + (oy - cy) * ((oy - cy) / L))
        = 2 * (((ox - cx) * (ox - cx) + (oy - cy) * (oy - cy)) / L) from by
      ring]
    rw [← hLL]
    rw [show L * L / L = L from by field_simp]
  have hC : coeffC (Vec2.mk cx cy) radius (Vec2.mk ox oy)
      = L * L - radius * radius := by
    unfold coeffC
    simp only [Vec2.sub_x, Vec2.sub_y, Vec2.mk_x, Vec2.mk_y]
    rw [← hLL]
  have hD : discriminant (Vec2.mk cx cy) radius (Vec2.mk ox oy)
      (Vec2.mk ((ox - cx) / L) ((oy - cy) / L))
      = (2 * radius) * (2 * radius) := by
    unfold discriminant
    rw [hA, hB, hC]
    ring
  have hroot : nearRoot (Vec2.mk cx cy) radius (Vec2.mk ox oy)
      (Vec2.mk ((ox - cx) / L) ((oy - cy) / L)) = -(L + radius) := by
    unfold nearRoot
    rw [hA, hB, hD, Real.sqrt_mul_self (by linarith : (0:ℝ) ≤ 2 * radius)]
    ring
  unfold intersect
  rw [if_neg (by rw [hD]; exact not_lt.mpr (mul_self_nonneg _))]
  show decide (nearRoot (Vec2.mk cx cy) radius (Vec2.mk ox oy)
    (Vec2.mk ((ox - cx) / L) ((oy - cy) / L)) > 0.001) = false
  rw [hroot]
  exact decide_eq_false (by push_neg; nlinarith)

theorem intersect_away_from_center_witness :
    (0 : ℝ) ≤ 5 ∧
      (5 : ℝ) < (Vec2.mk 10 0 - Vec2.mk 0 0).length ∧
      (intersect (Vec2.mk 0 0) 5 (Vec2.mk 10 0)
        (Vec2.normalize (Vec2.mk 10 0 - Vec2.mk 0 0)) 0).1 = false := by
  have hlen : (Vec2.mk 10 0 - Vec2.mk 0 0).length = 10 := by
    unfold Vec2.length
    simp only [Vec2.sub_x, Vec2.sub_y, Vec2.mk_x, Vec2.mk_y]
    exact sqrt_eval (by norm_num) (by norm_num)
  have hout : (5 : ℝ) < (Vec2.mk 10 0 - Vec2.mk 0 0).length := by
    rw [hlen]
    norm_num
  exact ⟨by norm_num, hout,
    intersect_away_from_center (Vec2.mk 0 0) 5 (Vec2.mk 10 0) 0 (by norm_num) hout⟩
